import Mathlib

/-!
Verification of the PlanetSupercell e-commerce backend.

The JavaScript/Mongoose source is shallowly embedded: Mongo documents become
Lean structures, collections become lists, and each controller function
becomes a pure Lean function from a database state (plus request data) to a
response together with the successor state.  JavaScript numbers are modelled
as exact rationals (IEEE-754 rounding is outside the scope of the claims).
Mongo object ids are modelled as naturals; `_id` uniqueness, which MongoDB
enforces, is taken as a hypothesis where a proof needs it.
-/

namespace PlanetSupercell

/-- Mongo object id. -/
abbrev Oid := Nat

/-- models/Product.js : the fields of ProductSchema used by the controllers. -/
structure Product where
  id : Oid
  user : Oid
  name : String
  categoryId : Oid
  description : String
  price : ℚ
  oldPrice : Option ℚ
  stock : ℚ
  image : String
  deriving Repr, DecidableEq

/-- models/Order.js : OrderItemSchema, the frozen per-item snapshot. -/
structure OrderItem where
  productId : Oid
  name : String
  quantity : ℚ
  price : ℚ
  image : String
  deriving Repr, DecidableEq

/-- models/Order.js : the fields of OrderSchema used by the controllers.
The owner field is named `user` (there is no `userId` path in the schema). -/
structure Order where
  id : Oid
  user : Oid
  items : List OrderItem
  totalAmount : ℚ
  status : String
  screenshotPath : Option String
  reviewSubmitted : Bool
  deriving Repr, DecidableEq

/-- models/Review.js : the fields of ReviewSchema used by the controllers. -/
structure Review where
  id : Oid
  user : Oid
  authorName : String
  product : Oid
  order : Oid
  rating : ℚ
  text : String
  deriving Repr, DecidableEq

/-- models/Category.js : the fields of CategorySchema used by the controllers. -/
structure Category where
  id : Oid
  name : String
  parentId : Option Oid
  image : String
  deriving Repr, DecidableEq

/-- The document store: one collection per model. -/
structure DB where
  products : List Product
  orders : List Order
  reviews : List Review
  categories : List Category
  deriving Repr, DecidableEq

/-- `Model.findById` / `Map.get` on the products collection. -/
def findProduct (db : DB) (pid : Oid) : Option Product :=
  db.products.find? (fun p => p.id = pid)

/-- `Order.findById`. -/
def findOrder (db : DB) (oid : Oid) : Option Order :=
  db.orders.find? (fun o => o.id = oid)

/-- `Model.findByIdAndUpdate` restricted to one document: MongoDB `_id`s are
unique, so updating every list entry with the given id updates the single
matching document. -/
def updateById (f : Product → Product) (pid : Oid) (l : List Product) :
    List Product :=
  l.map (fun p => if p.id = pid then f p else p)

/-! ## controllers/orderController.js -/

/-- One `{ productId, quantity }` entry of the `items` request body array. -/
structure ReqItem where
  productId : Oid
  quantity : ℚ
  deriving Repr, DecidableEq

/-- The ways `createOrder` responds without creating an order. -/
inductive OrderErr where
  /-- 400 «Корзина пуста». -/
  | emptyCart : OrderErr
  /-- 404 «Товар с ID … не найден», carrying the missing product id. -/
  | productNotFound (productId : Oid) : OrderErr
  /-- 400 «Недостаточно товара … Доступно: …», carrying `productId` and
  `availableStock` exactly as the JSON response does. -/
  | insufficientStock (productId : Oid) (availableStock : ℚ) : OrderErr
  deriving Repr, DecidableEq

/-- The per-item validation loop of `createOrder` (orderController.js:35-61):
resolve each product, reject on a missing product or on
`product.stock < item.quantity`, otherwise push the snapshot item and
accumulate `totalAmount`.  Returns the built `orderItems` with the total. -/
def validateItems (db : DB) : List ReqItem → Except OrderErr (List OrderItem × ℚ)
  | [] => .ok ([], 0)
  | item :: rest =>
    match findProduct db item.productId with
    | none => .error (.productNotFound item.productId)
    | some product =>
      if product.stock < item.quantity then
        .error (.insufficientStock product.id product.stock)
      else
        match validateItems db rest with
        | .error e => .error e
        | .ok (items, total) =>
          .ok ({ productId := product.id, name := product.name,
                 quantity := item.quantity, price := product.price,
                 image := product.image } :: items,
               product.price * item.quantity + total)

/-- The stock-decrement loop of `createOrder` (orderController.js:75-81):
`$inc: { stock: -item.quantity }` for each order item in sequence. -/
def decrementStock (items : List OrderItem) (products : List Product) :
    List Product :=
  items.foldl
    (fun acc it => updateById (fun p => { p with stock := p.stock - it.quantity }) it.productId acc)
    products

/-- `exports.createOrder` (orderController.js:11-105): validate the cart,
validate every line against live stock, then decrement stock per item and
persist the order with status `paid-pending`.  `newId` stands for the id
Mongo assigns to the inserted order. -/
def createOrder (db : DB) (userId : Oid) (items : List ReqItem)
    (screenshotPath : Option String) (newId : Oid) :
    Except OrderErr Order × DB :=
  if items.isEmpty then
    (.error .emptyCart, db)
  else
    match validateItems db items with
    | .error e => (.error e, db)
    | .ok (orderItems, totalAmount) =>
      let order : Order :=
        { id := newId, user := userId, items := orderItems,
          totalAmount := totalAmount, status := "paid-pending",
          screenshotPath := screenshotPath, reviewSubmitted := false }
      let products' := decrementStock orderItems db.products
      (.ok order, { db with products := products', orders := db.orders ++ [order] })

/-- orderController.js:182 — the admissible order statuses. -/
def validStatuses : List String :=
  ["pending", "paid-pending", "processing", "completed", "refunded"]

/-- The restock loop run when a status changes to `refunded`
(orderController.js:201-209): `$inc: { stock: item.quantity }` per item. -/
def restock (items : List OrderItem) (products : List Product) : List Product :=
  items.foldl
    (fun acc it => updateById (fun p => { p with stock := p.stock + it.quantity }) it.productId acc)
    products

/-- The ways `updateOrderStatus` fails. -/
inductive StatusErr where
  /-- 400 «Неверный или отсутствующий статус». -/
  | invalidStatus : StatusErr
  /-- 404 «Заказ не найден». -/
  | orderNotFound : StatusErr
  deriving Repr, DecidableEq

/-- `exports.updateOrderStatus` (orderController.js:177-237): check the new
status against `validStatuses`, look the order up, restock every item
exactly when the status changes into `refunded` from a different status,
and save the order with the new status. -/
def updateOrderStatus (db : DB) (orderId : Oid) (status : String) :
    Except StatusErr Order × DB :=
  if ¬ validStatuses.contains status then
    (.error .invalidStatus, db)
  else
    match findOrder db orderId with
    | none => (.error .orderNotFound, db)
    | some order =>
      let products' :=
        if status = "refunded" ∧ order.status ≠ "refunded" then
          restock order.items db.products
        else
          db.products
      let order' := { order with status := status }
      let orders' := db.orders.map (fun o => if o.id = orderId then order' else o)
      (.ok order', { db with products := products', orders := orders' })

/-! ## controllers/reviewController.js

`createReview` checks review eligibility with
`Order.findOne({ _id, userId, status: 'completed', 'items.productId' })`.
The filter is modelled at the MongoDB level: a document matches an equality
condition on a path only if the document actually carries that path with
that value.  `OrderSchema` names its owner field `user`, so the path
`userId` resolves on no order document, and an equality condition on it
against a (non-null) id matches nothing.  (This is the raw driver /
Mongoose ≥ 7 `strictQuery: false` semantics of the query as written.) -/

/-- A primitive MongoDB field value, for equality matching in filters. -/
inductive BVal where
  | oid (v : Oid)
  | str (v : String)
  | num (v : ℚ)
  | boolean (v : Bool)
  | null
  deriving Repr, DecidableEq

/-- Field lookup on an Order document, with exactly the scalar paths that
`OrderSchema` (models/Order.js) declares; any other path is absent.  The
array path `items` is handled separately by `itemsProductIdMatch`. -/
def orderField (o : Order) (path : String) : Option BVal :=
  if path = "_id" then some (.oid o.id)
  else if path = "user" then some (.oid o.user)
  else if path = "totalAmount" then some (.num o.totalAmount)
  else if path = "status" then some (.str o.status)
  else if path = "screenshotPath" then
    some (match o.screenshotPath with | none => .null | some s => .str s)
  else if path = "reviewSubmitted" then some (.boolean o.reviewSubmitted)
  else none

/-- MongoDB equality condition against a non-null constant: the path must be
present and equal.  (A missing field never equals a non-null value.) -/
def mongoEq (field : Option BVal) (v : BVal) : Bool :=
  field == some v

/-- The `'items.productId': productId` condition: some array element has the
given `productId`. -/
def itemsProductIdMatch (o : Order) (pid : Oid) : Bool :=
  o.items.any (fun it => it.productId = pid)

/-- The filter of the eligibility query `Order.findOne` in
reviewController.js:32-37, condition by condition. -/
def eligibilityMatch (o : Order) (orderId userId productId : Oid) : Bool :=
  mongoEq (orderField o "_id") (.oid orderId) &&
  mongoEq (orderField o "userId") (.oid userId) &&
  mongoEq (orderField o "status") (.str "completed") &&
  itemsProductIdMatch o productId

/-- The ways `createReview` responds without creating a review. -/
inductive ReviewErr where
  /-- 400 «Пожалуйста, укажите ID товара, ID заказа и рейтинг.» -/
  | missingFields : ReviewErr
  /-- 400 «Рейтинг должен быть от 1 до 5.» -/
  | badRating : ReviewErr
  /-- 404 «Товар не найден.» -/
  | productNotFound : ReviewErr
  /-- 403 «Невозможно оставить отзыв. Вы не покупали этот товар или заказ
  не завершен.» -/
  | notEligible : ReviewErr
  /-- 400 «Вы уже оставили отзыв для этого заказа.» -/
  | alreadyReviewedOrder : ReviewErr
  /-- 400 «Вы уже оставляли отзыв на этот товар.» -/
  | duplicateReview : ReviewErr
  /-- 400 Mongoose ValidationError surfaced on `review.save()`. -/
  | saveValidation : ReviewErr
  deriving Repr, DecidableEq

/-- reviewController.js:20 — the rating range test `rating < 1 || rating > 5`. -/
def ratingOutOfRange (rating : ℚ) : Bool :=
  rating < 1 || rating > 5

/-- `exports.createReview` (reviewController.js:12-87).  `productId` and
`orderId` are `none` when the request body omits them; a rating of `0` is
falsy in JavaScript and is caught by the same missing-field check. -/
def createReview (db : DB) (userId : Oid) (authorName : String)
    (productId orderId : Option Oid) (rating : ℚ) (text : String)
    (newId : Oid) : Except ReviewErr Review × DB :=
  match productId, orderId with
  | none, _ => (.error .missingFields, db)
  | _, none => (.error .missingFields, db)
  | some pid, some oid =>
    if rating = 0 then (.error .missingFields, db)
    else if ratingOutOfRange rating then (.error .badRating, db)
    else
      match findProduct db pid with
      | none => (.error .productNotFound, db)
      | some _ =>
        match db.orders.find? (fun o => eligibilityMatch o oid userId pid) with
        | none => (.error .notEligible, db)
        | some order =>
          if order.reviewSubmitted then (.error .alreadyReviewedOrder, db)
          else
            match db.reviews.find? (fun r => r.product = pid ∧ r.user = userId) with
            | some _ => (.error .duplicateReview, db)
            | none =>
              -- ReviewSchema validation on save: `rating` has min 1, max 5.
              if ¬ (1 ≤ rating ∧ rating ≤ 5) then (.error .saveValidation, db)
              else
                let review : Review :=
                  { id := newId, user := userId, authorName := authorName,
                    product := pid, order := oid, rating := rating, text := text }
                let orders' := db.orders.map
                  (fun o => if o.id = order.id then { o with reviewSubmitted := true } else o)
                (.ok review, { db with reviews := db.reviews ++ [review], orders := orders' })

/-! ## controllers/categoryController.js -/

/-- `Category.findById`. -/
def findCategory (cats : List Category) (cid : Oid) : Option Category :=
  cats.find? (fun c => c.id = cid)

/-- `getAllDescendantIds` (categoryController.js:9-20): the direct children
of `parentId` together, recursively, with their descendants, in traversal
order.  The JavaScript recursion has no fuel; it terminates on acyclic data,
and on such data any fuel of at least the collection size computes the same
list of ids (proved below), so callers pass `cats.length` as fuel. -/
def getAllDescendantIds (cats : List Category) : Nat → Oid → List Oid
  | 0, _ => []
  | fuel + 1, parentId =>
    (cats.filter (fun c => c.parentId = some parentId)).flatMap
      (fun child => child.id :: getAllDescendantIds cats fuel child.id)

/-- `isDescendant` (categoryController.js:23-36): walk `parentId` pointers
upward from `potentialChildId`, answering true on reaching `ancestorId`
(a node counts as its own descendant), false on a missing category or a
root.  Fuel bounds the recursion as above. -/
def isDescendant (cats : List Category) : Nat → Option Oid → Oid → Bool
  | _, none, _ => false
  | fuel, some childId, ancestorId =>
    if childId = ancestorId then true
    else
      match findCategory cats childId with
      | none => false
      | some child =>
        match child.parentId with
        | none => false
        | some p =>
          if p = ancestorId then true
          else
            match fuel with
            | 0 => false
            | fuel' + 1 => isDescendant cats fuel' (some p) ancestorId

/-- The ways `deleteCategory` fails. -/
inductive CatErr where
  /-- 404 «Категория не найдена». -/
  | notFound : CatErr
  deriving Repr, DecidableEq

/-- `exports.deleteCategory` (categoryController.js:150-185): collect
`[categoryId, ...descendants]`, `Product.deleteMany` on that category id
set, then `Category.deleteMany` on it.  Returns the two deleted counts. -/
def deleteCategory (db : DB) (categoryId : Oid) : Except CatErr (Nat × Nat) × DB :=
  match findCategory db.categories categoryId with
  | none => (.error .notFound, db)
  | some _ =>
    let allCategoryIdsToDelete :=
      categoryId :: getAllDescendantIds db.categories db.categories.length categoryId
    let products' :=
      db.products.filter (fun p => ¬ allCategoryIdsToDelete.contains p.categoryId)
    let categories' :=
      db.categories.filter (fun c => ¬ allCategoryIdsToDelete.contains c.id)
    (.ok (db.categories.length - categories'.length,
          db.products.length - products'.length),
     { db with products := products', categories := categories' })

/-! ## controllers/productController.js (update path, needed for C8) -/

/-- The ways `updateProduct` fails. -/
inductive ProdErr where
  /-- 404 «Товар не найден». -/
  | notFound : ProdErr
  /-- 400 «Цена должна быть положительным числом.» -/
  | badPrice : ProdErr
  /-- 400 «Остаток не может быть отрицательным.» -/
  | badStock : ProdErr
  /-- 400 «Старая цена должна быть числом не меньше 0.» -/
  | badOldPrice : ProdErr
  /-- 400 «Старая цена должна быть больше текущей цены.» -/
  | oldPriceNotAbove : ProdErr
  /-- 400 «Категория с ID … не найдена.» -/
  | categoryNotFound : ProdErr
  deriving Repr, DecidableEq

/-- `exports.updateProduct` (productController.js): validate the supplied
fields, then overwrite them on the product document.  An argument is `none`
when the request body omits the field (`undefined`); `oldPrice` is doubly
optional because `null` clears it, and a falsy `0` also maps to `null`
through `oldPrice ? Number(oldPrice) : null`.  Only the products collection
is written. -/
def updateProduct (db : DB) (pid : Oid) (name : Option String)
    (price : Option ℚ) (description : Option String) (image : Option String)
    (stock : Option ℚ) (categoryId : Option Oid)
    (oldPrice : Option (Option ℚ)) : Except ProdErr Product × DB :=
  match findProduct db pid with
  | none => (.error .notFound, db)
  | some product =>
    if price.any (fun p => p ≤ 0) then (.error .badPrice, db)
    else if stock.any (fun s => s < 0) then (.error .badStock, db)
    else
      let currentPrice := price.getD product.price
      let currentOldPrice :=
        match oldPrice with
        | some (some v) => if v = 0 then none else some v
        | some none => none
        | none => product.oldPrice
      if currentOldPrice.any (fun v => v < 0) then (.error .badOldPrice, db)
      else if currentOldPrice.any (fun v => v ≤ currentPrice) then
        (.error .oldPriceNotAbove, db)
      else if categoryId.any (fun c => findCategory db.categories c = none) then
        (.error .categoryNotFound, db)
      else
        let product' : Product :=
          { product with
            name := (match name with
              | some n => if n = "" then product.name else n
              | none => product.name)
            price := currentPrice
            description := description.getD product.description
            image := image.getD product.image
            stock := stock.getD product.stock
            categoryId := categoryId.getD product.categoryId
            oldPrice := currentOldPrice }
        (.ok product',
         { db with products :=
            db.products.map (fun p => if p.id = pid then product' else p) })

/-! ## controllers/authController.js — `validateTelegramData`

The byte strings handled by `crypto.createHmac` are modelled as lists of
naturals below 256; `strBytes` injects ASCII string literals.  SHA-256 and
HMAC are implemented concretely so that the validation function is the real
one, executable by the kernel. -/

/-- ASCII bytes of a string literal. -/
def strBytes (s : String) : List Nat :=
  s.data.map Char.toNat

/-- Truncation to a 32-bit word. -/
def w32 (n : Nat) : Nat := n % 4294967296

/-- 32-bit right rotation. -/
def rotr (n x : Nat) : Nat := w32 ((x >>> n) ||| (x <<< (32 - n)))

/-- 32-bit complement. -/
def not32 (x : Nat) : Nat := x ^^^ 4294967295

/-- SHA-256 round constants (FIPS 180-4, in decimal). -/
def shaK : List Nat :=
  [1116352408, 1899447441, 3049323471, 3921009573, 961987163,
   1508970993, 2453635748, 2870763221, 3624381080, 310598401,
   607225278, 1426881987, 1925078388, 2162078206, 2614888103,
   3248222580, 3835390401, 4022224774, 264347078, 604807628,
   770255983, 1249150122, 1555081692, 1996064986, 2554220882,
   2821834349, 2952996808, 3210313671, 3336571891, 3584528711,
   113926993, 338241895, 666307205, 773529912, 1294757372,
   1396182291, 1695183700, 1986661051, 2177026350, 2456956037,
   2730485921, 2820302411, 3259730800, 3345764771, 3516065817,
   3600352804, 4094571909, 275423344, 430227734, 506948616,
   659060556, 883997877, 958139571, 1322822218, 1537002063,
   1747873779, 1955562222, 2024104815, 2227730452, 2361852424,
   2428436474, 2756734187, 3204031479, 3329325298]

/-- SHA-256 initial hash value (FIPS 180-4, in decimal). -/
def shaH0 : List Nat :=
  [1779033703, 3144134277, 1013904242, 2773480762,
   1359893119, 2600822924, 528734635, 1541459225]

/-- Big-endian bytes of `n`, `k` bytes wide. -/
def beBytes (k n : Nat) : List Nat :=
  (List.range k).map (fun i => (n >>> (8 * (k - 1 - i))) % 256)

/-- SHA-256 message padding: `0x80`, zeros to 56 mod 64, then the bit length
as 8 big-endian bytes. -/
def sha256pad (msg : List Nat) : List Nat :=
  msg ++ 128 :: List.replicate ((120 - (msg.length + 1) % 64) % 64) 0
      ++ beBytes 8 (msg.length * 8)

/-- Big-endian 32-bit words from bytes (length assumed divisible by 4). -/
def bytesToWords : List Nat → List Nat
  | b0 :: b1 :: b2 :: b3 :: rest =>
    (((b0 * 256 + b1) * 256 + b2) * 256 + b3) :: bytesToWords rest
  | _ => []

/-- Split a word list into 16-word blocks (the padded length is always a
multiple of 16 words). -/
def toBlocks : List Nat → List (List Nat)
  | w0 :: w1 :: w2 :: w3 :: w4 :: w5 :: w6 :: w7 ::
    w8 :: w9 :: w10 :: w11 :: w12 :: w13 :: w14 :: w15 :: rest =>
    [w0, w1, w2, w3, w4, w5, w6, w7, w8, w9, w10, w11, w12, w13, w14, w15] ::
      toBlocks rest
  | _ => []

/-- Extend a 16-word block with `n` further scheduled words. -/
def extendSchedule (w : List Nat) : Nat → List Nat
  | 0 => w
  | n + 1 =>
    let prev := extendSchedule w n
    let t := 16 + n
    let s0 :=
      let x := prev.getD (t - 15) 0
      (rotr 7 x) ^^^ (rotr 18 x) ^^^ (x >>> 3)
    let s1 :=
      let x := prev.getD (t - 2) 0
      (rotr 17 x) ^^^ (rotr 19 x) ^^^ (x >>> 10)
    prev ++ [w32 (s1 + prev.getD (t - 7) 0 + s0 + prev.getD (t - 16) 0)]

/-- One SHA-256 round on the state `[a,b,c,d,e,f,g,h]`. -/
def compressRound (st : List Nat) (kw : Nat × Nat) : List Nat :=
  let a := st.getD 0 0
  let b := st.getD 1 0
  let c := st.getD 2 0
  let d := st.getD 3 0
  let e := st.getD 4 0
  let f := st.getD 5 0
  let g := st.getD 6 0
  let h := st.getD 7 0
  let bigS1 := (rotr 6 e) ^^^ (rotr 11 e) ^^^ (rotr 25 e)
  let ch := (e &&& f) ^^^ ((not32 e) &&& g)
  let t1 := w32 (h + bigS1 + ch + kw.1 + kw.2)
  let bigS0 := (rotr 2 a) ^^^ (rotr 13 a) ^^^ (rotr 22 a)
  let maj := (a &&& b) ^^^ (a &&& c) ^^^ (b &&& c)
  let t2 := w32 (bigS0 + maj)
  [w32 (t1 + t2), a, b, c, w32 (d + t1), e, f, g]

/-- Compress one 16-word block into the running hash. -/
def compressBlock (hv : List Nat) (block : List Nat) : List Nat :=
  let w := extendSchedule block 48
  let st := (shaK.zip w).foldl compressRound hv
  (hv.zip st).map (fun p => w32 (p.1 + p.2))

/-- SHA-256 of a byte string, as 32 bytes. -/
def sha256 (msg : List Nat) : List Nat :=
  ((toBlocks (bytesToWords (sha256pad msg))).foldl compressBlock shaH0).flatMap
    (beBytes 4)

/-- HMAC-SHA256 (`crypto.createHmac('sha256', key).update(msg).digest()`). -/
def hmacSha256 (key msg : List Nat) : List Nat :=
  let k0 := if 64 < key.length then sha256 key else key
  let k1 := k0 ++ List.replicate (64 - k0.length) 0
  sha256 ((k1.map (fun b => b ^^^ 92)) ++
    sha256 ((k1.map (fun b => b ^^^ 54)) ++ msg))

/-- Lowercase hex digit. -/
def hexChar (n : Nat) : Nat :=
  if n < 10 then 48 + n else 87 + n

/-- `.digest('hex')`: lowercase hex encoding, as ASCII bytes. -/
def hexBytes (bs : List Nat) : List Nat :=
  bs.flatMap (fun b => [hexChar (b / 16), hexChar (b % 16)])

/-! ### `new URLSearchParams(initData)` -/

/-- The value of a hex digit character, if it is one. -/
def hexVal? (c : Nat) : Option Nat :=
  if 48 ≤ c ∧ c ≤ 57 then some (c - 48)
  else if 97 ≤ c ∧ c ≤ 102 then some (c - 87)
  else if 65 ≤ c ∧ c ≤ 70 then some (c - 55)
  else none

/-- URL percent-decoding: `+` becomes a space, `%xy` becomes a byte, an
invalid escape stays literal. -/
def pctDecode : List Nat → List Nat
  | [] => []
  | 43 :: rest => 32 :: pctDecode rest
  | 37 :: h1 :: h2 :: rest =>
    match hexVal? h1, hexVal? h2 with
    | some a, some b => (16 * a + b) :: pctDecode rest
    | _, _ => 37 :: pctDecode (h1 :: h2 :: rest)
  | c :: rest => c :: pctDecode rest

/-- Split a byte string at every `&`. -/
def splitAmp : List Nat → List (List Nat)
  | [] => [[]]
  | 38 :: rest => [] :: splitAmp rest
  | c :: rest =>
    match splitAmp rest with
    | [] => [[c]]
    | seg :: segs => (c :: seg) :: segs

/-- One `key=value` segment: split at the first `=`; a segment without `=`
has the empty value. -/
def splitKV (seg : List Nat) : List Nat × List Nat :=
  (pctDecode (seg.takeWhile (fun c => c ≠ 61)),
   pctDecode ((seg.dropWhile (fun c => c ≠ 61)).tail))

/-- `new URLSearchParams(initData).entries()`: strip a leading `?`, split on
`&`, drop empty segments, split each segment at its first `=`, and
percent-decode keys and values, preserving order. -/
def parseParams (initData : List Nat) : List (List Nat × List Nat) :=
  let s := match initData with
    | 63 :: rest => rest
    | l => l
  ((splitAmp s).filter (fun seg => seg ≠ [])).map splitKV

/-- Lexicographic comparison of byte strings (JavaScript default `sort()`
compares strings by code units). -/
def bytesLe : List Nat → List Nat → Bool
  | [], _ => true
  | _ :: _, [] => false
  | x :: xs, y :: ys =>
    if x < y then true
    else if y < x then false
    else bytesLe xs ys

/-- Insertion into a sorted list of byte strings. -/
def insertSorted (x : List Nat) : List (List Nat) → List (List Nat)
  | [] => [x]
  | y :: ys => if bytesLe x y then x :: y :: ys else y :: insertSorted x ys

/-- `dataToCheck.sort()`. -/
def sortBytes (l : List (List Nat)) : List (List Nat) :=
  l.foldr insertSorted []

/-- The byte string `"hash"`. -/
def hashKey : List Nat := strBytes "hash"

/-- `validateTelegramData` (authController.js:139-169): take the declared
`hash` parameter (absent or empty means failure, since `!hash` is truthy on
`null` and on the empty string), join all other decoded `key=value` pairs
sorted lexicographically with newlines, derive
`secretKey = HMAC-SHA256(key = "WebAppData", message = botToken)`, and
authenticate exactly when the lowercase hex HMAC-SHA256 of the joined
string under `secretKey` equals the declared hash. -/
def validateTelegramData (initData botToken : List Nat) : Bool :=
  let params := parseParams initData
  match params.find? (fun kv => kv.1 = hashKey) with
  | none => false
  | some kv =>
    if kv.2 = [] then false
    else
      let dataToCheck :=
        (params.filter (fun p => p.1 ≠ hashKey)).map
          (fun p => p.1 ++ [61] ++ p.2)
      let dataCheckString := List.intercalate [10] (sortBytes dataToCheck)
      let secretKey := hmacSha256 (strBytes "WebAppData") botToken
      let calculatedHash := hexBytes (hmacSha256 secretKey dataCheckString)
      calculatedHash == kv.2

/-! ## Specification-side definitions

Each definition below transcribes the words of the specification or of a
claim, to be compared with the function embedded from the source. -/

/-- Spec side (C2): the review eligibility condition as the specification
words it — the order exists, belongs to the requesting user (the schema
field `user`), has status `completed`, and contains the product. -/
def eligibleOrderSpec (db : DB) (userId orderId productId : Oid) : Prop :=
  ∃ o ∈ db.orders, o.id = orderId ∧ o.user = userId ∧
    o.status = "completed" ∧ ∃ it ∈ o.items, it.productId = productId

/-- The first request item whose quantity exceeds the live stock of its
(resolved) product — the one `createOrder`'s validation loop reports. -/
def firstShort (db : DB) (items : List ReqItem) : Option ReqItem :=
  items.find? (fun it => (findProduct db it.productId).any
    (fun p => p.stock < it.quantity))

/-- Total quantity of product `pid` over the items of an order. -/
def itemsQty (items : List OrderItem) (pid : Oid) : ℚ :=
  ((items.filter (fun it => it.productId = pid)).map (fun it => it.quantity)).sum

/-- `child` is a direct child of `parent` in the category collection. -/
def childOf (cats : List Category) (parent child : Oid) : Prop :=
  ∃ c ∈ cats, c.id = child ∧ c.parentId = some parent

/-- Spec side (C7): `x` is a (strict, transitive) descendant of `root` —
there is a nonempty chain of child steps from `root` ending at `x`. -/
def IsDescendantOf (cats : List Category) (root x : Oid) : Prop :=
  ∃ l : List Oid, l ≠ [] ∧ List.Chain (childOf cats) root l ∧
    l.getLast? = some x

/-- Insertion into a list of pairs sorted by key. -/
def insertByKey (x : List Nat × List Nat) :
    List (List Nat × List Nat) → List (List Nat × List Nat)
  | [] => [x]
  | y :: ys => if bytesLe x.1 y.1 then x :: y :: ys else y :: insertByKey x ys

/-- Sort key/value pairs lexicographically by key. -/
def sortPairsByKey (l : List (List Nat × List Nat)) :
    List (List Nat × List Nat) :=
  l.foldr insertByKey []

/-- Claim side (C5, as the claim words it): the secret is
"HMAC-SHA256 over the literal string `WebAppData` keyed by the bot token" —
the token is the HMAC key and `"WebAppData"` the message. -/
def claimSecret (botToken : List Nat) : List Nat :=
  hmacSha256 botToken (strBytes "WebAppData")

/-- Claim side (C5, as the claim words it): authenticate exactly when the
hex HMAC-SHA256 — keyed by `claimSecret` — of the newline-joined,
lexicographically key-sorted non-hash `key=value` pairs equals the declared
hash, failing on any parse error. -/
def claimValidateTelegram (initData botToken : List Nat) : Bool :=
  let params := parseParams initData
  match params.find? (fun kv => kv.1 = hashKey) with
  | none => false
  | some kv =>
    if kv.2 = [] then false
    else
      let sorted := sortPairsByKey (params.filter (fun p => p.1 ≠ hashKey))
      let dataCheckString :=
        List.intercalate [10] (sorted.map (fun p => p.1 ++ [61] ++ p.2))
      hexBytes (hmacSha256 (claimSecret botToken) dataCheckString) == kv.2

/-- The declared `hash` parameter of a payload (first occurrence). -/
def telegramDeclaredHash (initData : List Nat) : Option (List Nat) :=
  ((parseParams initData).find? (fun kv => kv.1 = hashKey)).map (fun kv => kv.2)

/-- The data-check string of a payload: all non-hash decoded `key=value`
strings, sorted lexicographically, joined with newlines. -/
def telegramDataCheckString (initData : List Nat) : List Nat :=
  List.intercalate [10]
    (sortBytes (((parseParams initData).filter (fun p => p.1 ≠ hashKey)).map
      (fun p => p.1 ++ [61] ++ p.2)))

/-! ## Concrete states used by counterexamples and witnesses -/

/-- One product with stock 5. -/
def dbOneProduct : DB :=
  { products := [{ id := 1, user := 0, name := "P", categoryId := 0,
                   description := "", price := 10, oldPrice := none,
                   stock := 5, image := "" }],
    orders := [], reviews := [], categories := [] }

/-- Two products; the second has stock 1. -/
def dbTwoProducts : DB :=
  { products := [{ id := 1, user := 0, name := "P1", categoryId := 0,
                   description := "", price := 10, oldPrice := none,
                   stock := 5, image := "" },
                 { id := 2, user := 0, name := "P2", categoryId := 0,
                   description := "", price := 4, oldPrice := none,
                   stock := 1, image := "" }],
    orders := [], reviews := [], categories := [] }

/-- A completed order of product 1 owned by user 8, plus the product. -/
def dbCompletedOrder : DB :=
  { products := [{ id := 1, user := 0, name := "P", categoryId := 0,
                   description := "", price := 10, oldPrice := none,
                   stock := 5, image := "" }],
    orders := [{ id := 1, user := 8,
                 items := [{ productId := 1, name := "P", quantity := 1,
                             price := 10, image := "" }],
                 totalAmount := 10, status := "completed",
                 screenshotPath := none, reviewSubmitted := false }],
    reviews := [], categories := [] }

/-- An order of 3 units of product 1 in status `processing`. -/
def dbProcessingOrder : DB :=
  { products := [{ id := 1, user := 0, name := "A", categoryId := 0,
                   description := "", price := 10, oldPrice := none,
                   stock := 2, image := "" },
                 { id := 2, user := 0, name := "B", categoryId := 0,
                   description := "", price := 4, oldPrice := none,
                   stock := 7, image := "" }],
    orders := [{ id := 5, user := 9,
                 items := [{ productId := 1, name := "A", quantity := 3,
                             price := 10, image := "" }],
                 totalAmount := 30, status := "processing",
                 screenshotPath := none, reviewSubmitted := false }],
    reviews := [], categories := [] }

/-- The same order already in status `refunded`. -/
def dbRefundedOrder : DB :=
  { products := [{ id := 1, user := 0, name := "A", categoryId := 0,
                   description := "", price := 10, oldPrice := none,
                   stock := 5, image := "" },
                 { id := 2, user := 0, name := "B", categoryId := 0,
                   description := "", price := 4, oldPrice := none,
                   stock := 7, image := "" }],
    orders := [{ id := 5, user := 9,
                 items := [{ productId := 1, name := "A", quantity := 3,
                             price := 10, image := "" }],
                 totalAmount := 30, status := "refunded",
                 screenshotPath := none, reviewSubmitted := false }],
    reviews := [], categories := [] }

/-- A category chain 1 ← 2 ← 3, an unrelated root 4, and one product in
category 2 and one in category 4. -/
def dbCategoryTree : DB :=
  { products := [{ id := 21, user := 0, name := "P1", categoryId := 2,
                   description := "", price := 1, oldPrice := none,
                   stock := 0, image := "" },
                 { id := 22, user := 0, name := "P2", categoryId := 4,
                   description := "", price := 1, oldPrice := none,
                   stock := 0, image := "" }],
    orders := [], reviews := [],
    categories := [{ id := 1, name := "A", parentId := none, image := "" },
                   { id := 2, name := "B", parentId := some 1, image := "" },
                   { id := 3, name := "C", parentId := some 2, image := "" },
                   { id := 4, name := "D", parentId := none, image := "" }] }

/-- A single root category. -/
def oneRootCategory : List Category :=
  [{ id := 1, name := "root", parentId := none, image := "" }]

/-- A signed payload whose declared hash was computed with the HMAC roles of
claim C5 (token as key, `"WebAppData"` as message) over `a=1`, for the bot
token `t`. -/
def c5InitData : List Nat :=
  strBytes
    "a=1&hash=c9802b1b3c5e1aeed92f3e17cff301f7d409a8ee1be8b39dcbacc1b35d7e058a"

/-- The bot token of the C5 counterexample. -/
def c5Token : List Nat := strBytes "t"

/-! ## Helper lemmas -/

lemma itemsQty_nil (pid : Oid) : itemsQty [] pid = 0 := rfl

lemma itemsQty_cons (it : OrderItem) (rest : List OrderItem) (pid : Oid) :
    itemsQty (it :: rest) pid =
      (if it.productId = pid then it.quantity else 0) + itemsQty rest pid := by
  by_cases h : it.productId = pid <;>
    simp [itemsQty, List.filter_cons, h]

/-- The refund restock loop adds, to every product, the total ordered
quantity of that product. -/
lemma restock_eq_map (items : List OrderItem) (products : List Product) :
    restock items products =
      products.map (fun p => { p with stock := p.stock + itemsQty items p.id }) := by
  induction items generalizing products with
  | nil =>
    have : ∀ p : Product, { p with stock := p.stock + itemsQty [] p.id } = p := by
      intro p; simp [itemsQty_nil]
    simp only [restock, List.foldl_nil, this, List.map_id']
  | cons it rest ih =>
    have step : restock (it :: rest) products =
        restock rest (updateById
          (fun p => { p with stock := p.stock + it.quantity }) it.productId products) := rfl
    rw [step, ih, updateById, List.map_map]
    refine List.map_congr_left ?_
    intro p _
    by_cases h : p.id = it.productId
    · simp only [Function.comp, h, if_pos rfl, itemsQty_cons]
      simp [h, add_assoc]
    · have h' : ¬ it.productId = p.id := fun hc => h hc.symm
      simp only [Function.comp, if_neg h, itemsQty_cons, if_neg h']
      simp

/-- Saving a replacement for the first document matching an id keeps it the
first match, with the replacement returned. -/
lemma find?_map_replace (l : List Order) (oid : Oid) (o o' : Order)
    (ho : l.find? (fun x => x.id = oid) = some o) (hid : o'.id = o.id) :
    (l.map (fun x => if x.id = oid then o' else x)).find?
      (fun x => x.id = oid) = some o' := by
  induction l with
  | nil => simp at ho
  | cons x t ih =>
    by_cases hx : x.id = oid
    · have hox : o = x := by
        rw [List.find?_cons_of_pos _ (by simpa using hx)] at ho
        exact (Option.some_injective _ ho).symm
      have : o'.id = oid := by rw [hid, hox, hx]
      simp [List.find?_cons, hx, this]
    · rw [List.find?_cons_of_neg _ (by simpa using hx)] at ho
      simp only [List.map_cons, if_neg hx]
      rw [List.find?_cons_of_neg _ (by simpa using hx)]
      exact ih ho

/-- `updateProduct` writes only the products collection. -/
lemma updateProduct_orders_eq (db : DB) (pid : Oid) (name : Option String)
    (price : Option ℚ) (description : Option String) (image : Option String)
    (stock : Option ℚ) (categoryId : Option Oid)
    (oldPrice : Option (Option ℚ)) :
    (updateProduct db pid name price description image stock categoryId
      oldPrice).2.orders = db.orders := by
  unfold updateProduct
  cases findProduct db pid
  · rfl
  · dsimp only
    split_ifs <;> rfl

/-- The eligibility filter of `createReview` queries the path `userId`,
which `OrderSchema` does not declare, so no order document matches it. -/
lemma eligibilityMatch_false (o : Order) (oid uid pid : Oid) :
    eligibilityMatch o oid uid pid = false := by
  have huid : orderField o "userId" = none := by
    simp [orderField]
  simp [eligibilityMatch, mongoEq, huid]

lemma find?_eligibility_none (orders : List Order) (oid uid pid : Oid) :
    orders.find? (fun o => eligibilityMatch o oid uid pid) = none := by
  apply List.find?_eq_none.mpr
  intro o _
  simp [eligibilityMatch_false]

/-- A successful validation pass returns a total equal to the sum of the
snapshot line totals, and every snapshot copies the live product's price,
name and image. -/
lemma validateItems_ok_spec (db : DB) :
    ∀ (its : List ReqItem) (items : List OrderItem) (total : ℚ),
    validateItems db its = .ok (items, total) →
    total = (items.map (fun it => it.price * it.quantity)).sum ∧
    ∀ it ∈ items, ∃ p, findProduct db it.productId = some p ∧
      it.price = p.price ∧ it.name = p.name ∧ it.image = p.image := by
  intro its
  induction its with
  | nil =>
    intro items total h
    simp only [validateItems, Except.ok.injEq, Prod.mk.injEq] at h
    obtain ⟨h1, h2⟩ := h
    subst h1; subst h2
    simp
  | cons it rest ih =>
    intro items total h
    simp only [validateItems] at h
    cases hp : findProduct db it.productId with
    | none => rw [hp] at h; simp at h
    | some p =>
      rw [hp] at h
      dsimp only at h
      by_cases hs : p.stock < it.quantity
      · rw [if_pos hs] at h; simp at h
      · rw [if_neg hs] at h
        cases hv : validateItems db rest with
        | error e => rw [hv] at h; simp at h
        | ok pr =>
          obtain ⟨items', total'⟩ := pr
          rw [hv] at h
          simp only [Except.ok.injEq, Prod.mk.injEq] at h
          obtain ⟨hitems, htotal⟩ := h
          obtain ⟨ht, hsnap⟩ := ih items' total' hv
          have hpid : p.id = it.productId := by
            have := List.find?_some hp
            simpa using this
          constructor
          · rw [← hitems, ← htotal, ht]
            simp [mul_comm]
          · intro x hx
            rw [← hitems] at hx
            rcases List.mem_cons.mp hx with hhead | htail
            · subst hhead
              exact ⟨p, by simpa [hpid] using hp, rfl, rfl, rfl⟩
            · exact hsnap x htail

/-- When every requested product resolves and some line is short, validation
fails with the first short line's product id and its available stock. -/
lemma validateItems_short_spec (db : DB) :
    ∀ (its : List ReqItem),
    (∀ it ∈ its, (findProduct db it.productId).isSome) →
    (∃ it ∈ its, ∃ p, findProduct db it.productId = some p ∧ p.stock < it.quantity) →
    ∃ it p, firstShort db its = some it ∧ findProduct db it.productId = some p ∧
      validateItems db its = .error (.insufficientStock p.id p.stock) := by
  intro its
  induction its with
  | nil => intro _ hbad; simp at hbad
  | cons it rest ih =>
    intro hall hbad
    obtain ⟨p, hp⟩ := Option.isSome_iff_exists.mp (hall it (List.mem_cons_self it rest))
    by_cases hs : p.stock < it.quantity
    · refine ⟨it, p, ?_, hp, ?_⟩
      · unfold firstShort
        apply List.find?_cons_of_pos
        simp [hp, hs]
      · simp only [validateItems]
        rw [hp]
        dsimp only
        rw [if_pos hs]
    · have hbad' : ∃ it' ∈ rest, ∃ p', findProduct db it'.productId = some p' ∧
          p'.stock < it'.quantity := by
        obtain ⟨it', hmem, p', hfp', hs'⟩ := hbad
        rcases List.mem_cons.mp hmem with hhead | htail
        · subst hhead
          rw [hp] at hfp'
          cases hfp'
          exact absurd hs' hs
        · exact ⟨it', htail, p', hfp', hs'⟩
      obtain ⟨it', p', hfs, hfp, hval⟩ :=
        ih (fun x hx => hall x (List.mem_cons_of_mem it hx)) hbad'
      refine ⟨it', p', ?_, hfp, ?_⟩
      · unfold firstShort
        rw [List.find?_cons_of_neg _ (by simp [hp, hs])]
        exact hfs
      · simp only [validateItems]
        rw [hp]
        dsimp only
        rw [if_neg hs, hval]

/-! ### Characterizing `getAllDescendantIds` by child chains -/

/-- A child chain of length at most the fuel reaches into the computed
descendant list. -/
lemma chain_to_mem (cats : List Category) :
    ∀ (l : List Oid) (fuel : Nat) (p x : Oid),
    List.Chain (childOf cats) p l → l ≠ [] → l.getLast? = some x →
    l.length ≤ fuel →
    x ∈ getAllDescendantIds cats fuel p := by
  intro l
  induction l with
  | nil => intro fuel p x _ hne; exact absurd rfl hne
  | cons y t ih =>
    intro fuel p x hchain _ hlast hlen
    obtain ⟨hpy, hyt⟩ := List.chain_cons.mp hchain
    obtain ⟨c, hc, hcid, hcp⟩ := hpy
    cases fuel with
    | zero => simp at hlen
    | succ f =>
      simp only [getAllDescendantIds]
      apply List.mem_flatMap.mpr
      refine ⟨c, List.mem_filter.mpr ⟨hc, by simp [hcp]⟩, ?_⟩
      cases t with
      | nil =>
        have hyx : y = x := by simpa using hlast
        apply List.mem_cons.mpr
        exact Or.inl (hyx ▸ hcid.symm)
      | cons z t' =>
        have hlast' : (z :: t').getLast? = some x := by
          simpa [List.getLast?_cons_cons] using hlast
        have hlen' : (z :: t').length ≤ f := by
          simp only [List.length_cons] at hlen ⊢
          omega
        have hmem := ih f y x hyt (by simp) hlast' hlen'
        exact List.mem_cons_of_mem _ (hcid ▸ hmem)

/-- Conversely, membership in the computed descendant list yields a child
chain. -/
lemma mem_to_chain (cats : List Category) :
    ∀ (fuel : Nat) (p x : Oid),
    x ∈ getAllDescendantIds cats fuel p →
    ∃ l, l ≠ [] ∧ List.Chain (childOf cats) p l ∧ l.getLast? = some x := by
  intro fuel
  induction fuel with
  | zero => intro p x h; simp [getAllDescendantIds] at h
  | succ f ih =>
    intro p x h
    simp only [getAllDescendantIds] at h
    obtain ⟨c, hcfilter, hmem⟩ := List.mem_flatMap.mp h
    obtain ⟨hc, hcp⟩ := List.mem_filter.mp hcfilter
    have hcp' : c.parentId = some p := by simpa using hcp
    have hchild : childOf cats p c.id := ⟨c, hc, rfl, hcp'⟩
    rcases List.mem_cons.mp hmem with hx | hx
    · subst hx
      exact ⟨[c.id], by simp, List.chain_cons.mpr ⟨hchild, List.Chain.nil⟩, by simp⟩
    · obtain ⟨l', hne, hchain, hlast⟩ := ih c.id x hx
      refine ⟨c.id :: l', by simp, List.chain_cons.mpr ⟨hchild, hchain⟩, ?_⟩
      cases l' with
      | nil => exact absurd rfl hne
      | cons z t => simpa [List.getLast?_cons_cons] using hlast

/-- Every node of a child chain is the id of some category. -/
lemma chain_nodes_mem (cats : List Category) :
    ∀ (l : List Oid) (p : Oid), List.Chain (childOf cats) p l →
    ∀ y ∈ l, y ∈ cats.map (fun c => c.id) := by
  intro l
  induction l with
  | nil => simp
  | cons z t ih =>
    intro p hchain y hy
    obtain ⟨hpz, hzt⟩ := List.chain_cons.mp hchain
    rcases List.mem_cons.mp hy with h | h
    · obtain ⟨c, hc, hcid, _⟩ := hpz
      subst h
      exact List.mem_map.mpr ⟨c, hc, hcid⟩
    · exact ih z hzt y h

/-- A list with a repetition splits around the repeated element. -/
lemma exists_dup_split {α : Type} :
    ∀ (l : List α), ¬ l.Nodup →
    ∃ (l1 : List α) (a : α) (l2 l3 : List α), l = l1 ++ a :: l2 ++ a :: l3 := by
  intro l
  induction l with
  | nil => intro h; exact absurd List.nodup_nil h
  | cons b t ih =>
    intro h
    rw [List.nodup_cons] at h
    by_cases hb : b ∈ t
    · obtain ⟨s, t', rfl⟩ := List.append_of_mem hb
      exact ⟨[], b, s, t', by simp⟩
    · have ht : ¬ t.Nodup := fun hnd => h ⟨hb, hnd⟩
      obtain ⟨l1, a, l2, l3, rfl⟩ := ih ht
      exact ⟨b :: l1, a, l2, l3, by simp⟩

/-- Every child chain shortens to a duplicate-free child chain with the same
endpoints. -/
lemma chain_shorten_nodup (cats : List Category) :
    ∀ (n : Nat) (l : List Oid) (p x : Oid), l.length ≤ n → l ≠ [] →
    List.Chain (childOf cats) p l → l.getLast? = some x →
    ∃ l', l' ≠ [] ∧ l'.Nodup ∧ List.Chain (childOf cats) p l' ∧
      l'.getLast? = some x := by
  intro n
  induction n with
  | zero =>
    intro l p x hlen hne
    cases l with
    | nil => exact absurd rfl hne
    | cons y t => simp at hlen
  | succ n ih =>
    intro l p x hlen hne hchain hlast
    by_cases hnd : l.Nodup
    · exact ⟨l, hne, hnd, hchain, hlast⟩
    · obtain ⟨l1, a, l2, l3, rfl⟩ := exists_dup_split l hnd
      have hsplit1 : List.Chain (childOf cats) p (l1 ++ a :: (l2 ++ a :: l3)) ↔
          List.Chain (childOf cats) p (l1 ++ [a]) ∧
          List.Chain (childOf cats) a (l2 ++ a :: l3) := List.chain_split
      have hsplit2 : List.Chain (childOf cats) a (l2 ++ a :: l3) ↔
          List.Chain (childOf cats) a (l2 ++ [a]) ∧
          List.Chain (childOf cats) a l3 := List.chain_split
      have hjoin : List.Chain (childOf cats) p (l1 ++ a :: l3) ↔
          List.Chain (childOf cats) p (l1 ++ [a]) ∧
          List.Chain (childOf cats) a l3 := List.chain_split
      have hchain0 : List.Chain (childOf cats) p (l1 ++ a :: (l2 ++ a :: l3)) := by
        simpa [List.cons_append, List.append_assoc] using hchain
      have hchain' : List.Chain (childOf cats) p (l1 ++ a :: l3) := by
        obtain ⟨h1, h2⟩ := hsplit1.mp hchain0
        exact hjoin.mpr ⟨h1, (hsplit2.mp h2).2⟩
      have horig : (l1 ++ a :: l2 ++ a :: l3).getLast? = (a :: l3).getLast? := by
        have : l1 ++ a :: l2 ++ a :: l3 = (l1 ++ a :: l2) ++ (a :: l3) := by
          simp
        rw [this, List.getLast?_append_of_ne_nil _ (by simp)]
      have hnew : (l1 ++ a :: l3).getLast? = (a :: l3).getLast? :=
        List.getLast?_append_of_ne_nil _ (by simp)
      have hlast' : (l1 ++ a :: l3).getLast? = some x := by
        rw [hnew, ← horig]
        exact hlast
      have hlen' : (l1 ++ a :: l3).length ≤ n := by
        simp only [List.length_append, List.length_cons] at hlen ⊢
        omega
      exact ih (l1 ++ a :: l3) p x hlen' (by simp) hchain' hlast'

/-- A duplicate-free child chain is no longer than the category
collection. -/
lemma nodup_chain_length_le (cats : List Category) (l : List Oid) (p : Oid)
    (hchain : List.Chain (childOf cats) p l) (hnd : l.Nodup) :
    l.length ≤ cats.length := by
  have hsub : l ⊆ cats.map (fun c => c.id) :=
    fun y hy => chain_nodes_mem cats l p hchain y hy
  have hle := (List.subperm_of_subset hnd hsub).length_le
  simpa using hle

/-- The recursion computes, at fuel `cats.length`, exactly the transitive
child expansion: a chain can always be shortened to a duplicate-free one,
which the fuel accommodates. -/
lemma mem_getAllDescendantIds_iff (cats : List Category) (p x : Oid) :
    x ∈ getAllDescendantIds cats cats.length p ↔ IsDescendantOf cats p x := by
  constructor
  · intro h
    exact mem_to_chain cats cats.length p x h
  · rintro ⟨l, hne, hchain, hlast⟩
    obtain ⟨l', hne', hnd', hchain', hlast'⟩ :=
      chain_shorten_nodup cats l.length l p x le_rfl hne hchain hlast
    exact chain_to_mem cats l' cats.length p x hchain' hne' hlast'
      (nodup_chain_length_le cats l' p hchain' hnd')

/-! ## Claim theorems -/

/-- C9: `isDescendant` answers true on `isDescendant(C, C)` for every id
`C` (the equality test precedes any lookup), and answers false on
`isDescendant(R, A)` whenever `R` resolves to a root category (null
`parentId`) and `A` differs from `R` — the upward walk stops immediately. -/
theorem isDescendant_self_true_root_false (cats : List Category) (fuel : Nat)
    (C Rid A : Oid) (cat : Category)
    (hfind : findCategory cats Rid = some cat)
    (hroot : cat.parentId = none) (hA : A ≠ Rid) :
    isDescendant cats fuel (some C) C = true ∧
    isDescendant cats fuel (some Rid) A = false := by
  constructor
  · simp [isDescendant]
  · have hne : ¬ (Rid = A) := fun h => hA h.symm
    simp [isDescendant, hne, hfind, hroot]

/-- C9 witness: a concrete root category. -/
theorem isDescendant_self_true_root_false_witness :
    isDescendant oneRootCategory 3 (some 7) 7 = true ∧
    isDescendant oneRootCategory 3 (some 1) 2 = false :=
  isDescendant_self_true_root_false oneRootCategory 3 7 1 2
    { id := 1, name := "root", parentId := none, image := "" }
    (by decide) (by decide) (by decide)

/-- C2: whenever the basic validations pass (rating present and in range,
product resolved) but the order-eligibility condition of the specification —
the order exists, belongs to the requester, is `completed`, and contains the
product — fails, `createReview` answers the not-eligible error and leaves
the store unchanged.  (The eligibility query filters on the path `userId`,
which `OrderSchema` does not declare — its owner field is `user` — so the
query matches no document at all and the gate rejects every request; the
claimed guarantee holds a fortiori, and a review is never created.) -/
theorem createReview_not_eligible_rejected (db : DB) (userId : Oid)
    (authorName : String) (pid oid : Oid) (rating : ℚ) (text : String)
    (newId : Oid) (hr0 : rating ≠ 0) (hr : ratingOutOfRange rating = false)
    (hp : (findProduct db pid).isSome = true)
    (hne : ¬ eligibleOrderSpec db userId oid pid) :
    (createReview db userId authorName (some pid) (some oid) rating text
      newId).1 = .error .notEligible ∧
    (createReview db userId authorName (some pid) (some oid) rating text
      newId).2 = db := by
  obtain ⟨p, hp'⟩ := Option.isSome_iff_exists.mp hp
  simp [createReview, hr0, hr, hp', find?_eligibility_none]

/-- C2 witness: user 9 asks to review product 1 against order 1, which is
completed and contains product 1 but belongs to user 8. -/
theorem createReview_not_eligible_rejected_witness :
    (createReview dbCompletedOrder 9 "N" (some 1) (some 1) 3 "" 50).1
      = .error .notEligible ∧
    (createReview dbCompletedOrder 9 "N" (some 1) (some 1) 3 "" 50).2
      = dbCompletedOrder :=
  createReview_not_eligible_rejected dbCompletedOrder 9 "N" 1 1 3 "" 50
    (by norm_num)
    (by norm_num [ratingOutOfRange])
    (by rfl)
    (by
      intro h
      obtain ⟨o, ho, _, houser, _, _⟩ := h
      simp only [dbCompletedOrder, List.mem_singleton] at ho
      subst ho
      simp at houser)

/-- C4 counterexample: the rating validation of `createReview` is only the
range test `rating < 1 || rating > 5`; the non-integer rating 3.5 passes it,
and a call carrying rating 3.5 proceeds beyond validation (here to the
eligibility check) instead of being rejected with a validation error. -/
theorem rating_three_point_five_passes_validation :
    ratingOutOfRange (7 / 2) = false ∧
    (createReview dbOneProduct 9 "N" (some 1) (some 1) (7 / 2) "" 50).1
      = .error .notEligible := by
  have hout : ratingOutOfRange (7 / 2) = false := by
    norm_num [ratingOutOfRange]
  refine ⟨hout, ?_⟩
  have h0 : (7 / 2 : ℚ) ≠ 0 := by norm_num
  simp [createReview, h0, hout, find?_eligibility_none, dbOneProduct,
    findProduct]

/-- C4 (amended): any rating outside `[1, 5]` — integer or not — is rejected
before anything is persisted, with the missing-field message when the rating
is the falsy 0 and with the range message otherwise; ratings inside `[1, 5]`
pass the rating validation whether or not they are integers. -/
theorem createReview_rejects_rating_outside_range (db : DB) (userId : Oid)
    (authorName : String) (productId orderId : Option Oid) (rating : ℚ)
    (text : String) (newId : Oid) (hr : rating < 1 ∨ rating > 5) :
    ((createReview db userId authorName productId orderId rating text
        newId).1 = .error .missingFields ∨
     (createReview db userId authorName productId orderId rating text
        newId).1 = .error .badRating) ∧
    (createReview db userId authorName productId orderId rating text
      newId).2 = db := by
  cases productId with
  | none => simp [createReview]
  | some pid =>
    cases orderId with
    | none => simp [createReview]
    | some oid =>
      by_cases h0 : rating = 0
      · simp [createReview, h0]
      · have hout : ratingOutOfRange rating = true := by
          unfold ratingOutOfRange
          rcases hr with h | h <;> simp [h]
        simp [createReview, h0, hout]

/-- C4 witness: rating 6 is rejected with the range validation error. -/
theorem createReview_rejects_rating_outside_range_witness :
    ((createReview dbOneProduct 9 "N" (some 1) (some 1) 6 "" 50).1
        = .error .missingFields ∨
     (createReview dbOneProduct 9 "N" (some 1) (some 1) 6 "" 50).1
        = .error .badRating) ∧
    (createReview dbOneProduct 9 "N" (some 1) (some 1) 6 "" 50).2
      = dbOneProduct :=
  createReview_rejects_rating_outside_range dbOneProduct 9 "N" (some 1)
    (some 1) 6 "" 50 (by norm_num)

/-- C6: transitioning an order into `refunded` increases the stock of every
product by exactly its total ordered quantity (zero for products absent from
the order) when the old status differs from `refunded`, and leaves every
stock unchanged when the order is already `refunded`; the saved order
carries the new status. -/
theorem updateOrderStatus_refunded_restocks (db : DB) (oid : Oid) (o : Order)
    (hfind : findOrder db oid = some o) :
    (updateOrderStatus db oid "refunded").1 = .ok { o with status := "refunded" } ∧
    (updateOrderStatus db oid "refunded").2.products =
      db.products.map (fun p => { p with stock := p.stock +
        (if o.status = "refunded" then 0 else itemsQty o.items p.id) }) := by
  have hvalid : ("refunded" : String) ∈ validStatuses := by decide
  constructor
  · simp [updateOrderStatus, hvalid, hfind]
  · by_cases hst : o.status = "refunded"
    · have hid : ∀ p : Product, { p with stock := p.stock + (0 : ℚ) } = p := by
        intro p; simp
      simp [updateOrderStatus, hvalid, hfind, hst, hid, List.map_id']
    · simp [updateOrderStatus, hvalid, hfind, hst, restock_eq_map]

/-- C6 witness: refunding a processing order of 3 units of product 1 adds 3
to product 1's stock and nothing to product 2's. -/
theorem updateOrderStatus_refunded_restocks_witness :
    (updateOrderStatus dbProcessingOrder 5 "refunded").1 =
      .ok { id := 5, user := 9,
            items := [{ productId := 1, name := "A", quantity := 3,
                        price := 10, image := "" }],
            totalAmount := 30, status := "refunded",
            screenshotPath := none, reviewSubmitted := false } ∧
    (updateOrderStatus dbProcessingOrder 5 "refunded").2.products =
      dbProcessingOrder.products.map (fun p => { p with stock := p.stock +
        (if ("processing" : String) = "refunded" then 0
         else itemsQty [{ productId := 1, name := "A", quantity := 3,
                          price := 10, image := "" }] p.id) }) :=
  updateOrderStatus_refunded_restocks dbProcessingOrder 5
    { id := 5, user := 9,
      items := [{ productId := 1, name := "A", quantity := 3,
                  price := 10, image := "" }],
      totalAmount := 30, status := "processing",
      screenshotPath := none, reviewSubmitted := false }
    (by rfl)

/-- C10: moving an order out of `refunded` to any other valid status only
rewrites the order's status — no product stock changes (the code has no
stock-decrement branch for leaving `refunded`) — and a later transition back
into `refunded` restocks every item again, on top of whatever restock the
first entry into `refunded` already applied. -/
theorem updateOrderStatus_leaving_refunded_frame (db : DB) (oid : Oid)
    (o : Order) (newStatus : String) (hfind : findOrder db oid = some o)
    (href : o.status = "refunded") (hvalid : newStatus ∈ validStatuses)
    (hnew : newStatus ≠ "refunded") :
    (updateOrderStatus db oid newStatus).2.products = db.products ∧
    findOrder (updateOrderStatus db oid newStatus).2 oid
      = some { o with status := newStatus } ∧
    (updateOrderStatus (updateOrderStatus db oid newStatus).2 oid
        "refunded").2.products
      = db.products.map
          (fun p => { p with stock := p.stock + itemsQty o.items p.id }) := by
  have hcond : ¬ (newStatus = "refunded" ∧ o.status ≠ "refunded") := by
    intro h
    exact hnew h.1
  have h1 : (updateOrderStatus db oid newStatus).2.products = db.products := by
    simp [updateOrderStatus, hvalid, hfind, hcond]
  have h2 : findOrder (updateOrderStatus db oid newStatus).2 oid
      = some { o with status := newStatus } := by
    have horders : (updateOrderStatus db oid newStatus).2.orders =
        db.orders.map
          (fun x => if x.id = oid then { o with status := newStatus } else x) := by
      simp [updateOrderStatus, hvalid, hfind, hcond]
    unfold findOrder
    rw [horders]
    exact find?_map_replace db.orders oid o { o with status := newStatus }
      hfind rfl
  refine ⟨h1, h2, ?_⟩
  have hvalid2 : ("refunded" : String) ∈ validStatuses := by decide
  obtain ⟨db1, hdb1⟩ : ∃ db1, (updateOrderStatus db oid newStatus).2 = db1 :=
    ⟨_, rfl⟩
  rw [hdb1] at h1 h2 ⊢
  simp [updateOrderStatus, hvalid2, h2, hnew, h1, restock_eq_map]

/-- C10 witness: a refunded order of 3 units of product 1 moves to
`processing` without stock movement, and refunding it again adds 3 once
more. -/
theorem updateOrderStatus_leaving_refunded_frame_witness :
    (updateOrderStatus dbRefundedOrder 5 "processing").2.products
      = dbRefundedOrder.products ∧
    findOrder (updateOrderStatus dbRefundedOrder 5 "processing").2 5
      = some { id := 5, user := 9,
               items := [{ productId := 1, name := "A", quantity := 3,
                           price := 10, image := "" }],
               totalAmount := 30, status := "processing",
               screenshotPath := none, reviewSubmitted := false } ∧
    (updateOrderStatus (updateOrderStatus dbRefundedOrder 5 "processing").2 5
        "refunded").2.products
      = dbRefundedOrder.products.map
          (fun p => { p with
                      stock := p.stock +
                        itemsQty [{ productId := 1, name := "A",
                                    quantity := 3, price := 10,
                                    image := "" }] p.id }) :=
  updateOrderStatus_leaving_refunded_frame dbRefundedOrder 5
    { id := 5, user := 9,
      items := [{ productId := 1, name := "A", quantity := 3,
                  price := 10, image := "" }],
      totalAmount := 30, status := "refunded",
      screenshotPath := none, reviewSubmitted := false }
    "processing" (by rfl) (by rfl) (by decide) (by decide)

/-- C3: when every requested product resolves but some line asks for more
than its product's stock, `createOrder` returns, with the store completely
unchanged, the insufficient-stock error carrying the first short line's
product id and its available stock. -/
theorem createOrder_insufficient_stock_aborts (db : DB) (userId : Oid)
    (its : List ReqItem) (sp : Option String) (newId : Oid)
    (hall : ∀ it ∈ its, (findProduct db it.productId).isSome = true)
    (hbad : ∃ it ∈ its, ∃ p, findProduct db it.productId = some p ∧
      p.stock < it.quantity) :
    ∃ it p, firstShort db its = some it ∧
      findProduct db it.productId = some p ∧
      createOrder db userId its sp newId =
        (.error (.insufficientStock p.id p.stock), db) := by
  obtain ⟨it, p, hfs, hfp, hval⟩ := validateItems_short_spec db its hall hbad
  refine ⟨it, p, hfs, hfp, ?_⟩
  have hne : its.isEmpty = false := by
    cases its with
    | nil => simp at hbad
    | cons a t => rfl
  simp [createOrder, hne, hval]

/-- C3 witness: product 2 has stock 1 but 3 are requested; the order of
product 1 (in stock) and product 2 fails with product 2's id and stock 1,
leaving the store unchanged. -/
theorem createOrder_insufficient_stock_aborts_witness :
    (∀ it ∈ [ReqItem.mk 1 2, ReqItem.mk 2 3],
      (findProduct dbTwoProducts it.productId).isSome = true) ∧
    (∃ it ∈ [ReqItem.mk 1 2, ReqItem.mk 2 3], ∃ p,
      findProduct dbTwoProducts it.productId = some p ∧
      p.stock < it.quantity) ∧
    (∃ it p, firstShort dbTwoProducts [ReqItem.mk 1 2, ReqItem.mk 2 3] = some it ∧
      findProduct dbTwoProducts it.productId = some p ∧
      createOrder dbTwoProducts 7 [ReqItem.mk 1 2, ReqItem.mk 2 3] none 100 =
        (.error (.insufficientStock p.id p.stock), dbTwoProducts)) := by
  have hall : ∀ it ∈ [ReqItem.mk 1 2, ReqItem.mk 2 3],
      (findProduct dbTwoProducts it.productId).isSome = true := by decide
  have hbad : ∃ it ∈ [ReqItem.mk 1 2, ReqItem.mk 2 3], ∃ p,
      findProduct dbTwoProducts it.productId = some p ∧
      p.stock < it.quantity := by
    refine ⟨ReqItem.mk 2 3, by decide, ?_⟩
    refine ⟨{ id := 2, user := 0, name := "P2", categoryId := 0,
              description := "", price := 4, oldPrice := none,
              stock := 1, image := "" }, by rfl, by norm_num⟩
  exact ⟨hall, hbad,
    createOrder_insufficient_stock_aborts dbTwoProducts 7
      [ReqItem.mk 1 2, ReqItem.mk 2 3] none 100 hall hbad⟩

/-- C8: a successfully created order's `totalAmount` is the sum of its
snapshot line totals; each snapshot copies the live product's price, name
and image at creation time; the order is persisted; and no later
`updateProduct` call (price changes included) rewrites any stored order. -/
theorem createOrder_total_is_snapshot_sum (db : DB) (userId : Oid)
    (its : List ReqItem) (sp : Option String) (newId : Oid) (o : Order)
    (hok : (createOrder db userId its sp newId).1 = .ok o) :
    o.totalAmount = (o.items.map (fun it => it.price * it.quantity)).sum ∧
    (∀ it ∈ o.items, ∃ p, findProduct db it.productId = some p ∧
      it.price = p.price ∧ it.name = p.name ∧ it.image = p.image) ∧
    o ∈ (createOrder db userId its sp newId).2.orders ∧
    (∀ (pid : Oid) (name : Option String) (price : Option ℚ)
      (description : Option String) (image : Option String)
      (stock : Option ℚ) (categoryId : Option Oid)
      (oldPrice : Option (Option ℚ)),
      (updateProduct (createOrder db userId its sp newId).2 pid name price
        description image stock categoryId oldPrice).2.orders =
      (createOrder db userId its sp newId).2.orders) := by
  cases hi : its.isEmpty with
  | true => simp [createOrder, hi] at hok
  | false =>
    cases hv : validateItems db its with
    | error e => simp [createOrder, hi, hv] at hok
    | ok pr =>
      obtain ⟨items, total⟩ := pr
      have ho : o = { id := newId, user := userId, items := items,
                      totalAmount := total, status := "paid-pending",
                      screenshotPath := sp, reviewSubmitted := false } := by
        simp [createOrder, hi, hv] at hok
        exact hok.symm
      obtain ⟨htotal, hsnap⟩ := validateItems_ok_spec db its items total hv
      refine ⟨?_, ?_, ?_, ?_⟩
      · rw [ho]
        exact htotal
      · rw [ho]
        exact hsnap
      · simp [createOrder, hi, hv, ho]
      · intro pid name price description image stock categoryId oldPrice
        exact updateProduct_orders_eq _ pid name price description image
          stock categoryId oldPrice

/-- C8 witness: ordering 2 units of the stock-5, price-10 product yields a
persisted order with `totalAmount` 20 snapshotting price 10. -/
theorem createOrder_total_is_snapshot_sum_witness :
    ((createOrder dbOneProduct 7 [ReqItem.mk 1 2] none 100).1 =
      .ok { id := 100, user := 7,
            items := [{ productId := 1, name := "P", quantity := 2,
                        price := 10, image := "" }],
            totalAmount := 20, status := "paid-pending",
            screenshotPath := none, reviewSubmitted := false }) ∧
    ({ id := 100, user := 7,
       items := [{ productId := 1, name := "P", quantity := 2,
                   price := 10, image := "" }],
       totalAmount := 20, status := "paid-pending",
       screenshotPath := none, reviewSubmitted := false } : Order).totalAmount
      = (([{ productId := 1, name := "P", quantity := 2, price := 10,
             image := "" }] : List OrderItem).map
          (fun it => it.price * it.quantity)).sum := by
  have hok : (createOrder dbOneProduct 7 [ReqItem.mk 1 2] none 100).1 =
      .ok { id := 100, user := 7,
            items := [{ productId := 1, name := "P", quantity := 2,
                        price := 10, image := "" }],
            totalAmount := 20, status := "paid-pending",
            screenshotPath := none, reviewSubmitted := false } := by
    simp [createOrder, validateItems, findProduct, dbOneProduct]
    norm_num
  refine ⟨hok, ?_⟩
  exact (createOrder_total_is_snapshot_sum dbOneProduct 7 [ReqItem.mk 1 2]
    none 100 _ hok).1

/-- C7: `deleteCategory` on an existing category `C` keeps exactly the
categories outside `{C} ∪ descendants(C)` — descendants being transitive
child expansion over `parentId` — and exactly the products whose category id
is outside that set; equivalently, it deletes exactly that category set and
the products referencing it, touching nothing else. -/
theorem deleteCategory_exact (db : DB) (C : Oid) (c₀ : Category)
    (hfind : findCategory db.categories C = some c₀) :
    (∀ c : Category, c ∈ (deleteCategory db C).2.categories ↔
      c ∈ db.categories ∧
      ¬ (c.id = C ∨ IsDescendantOf db.categories C c.id)) ∧
    (∀ p : Product, p ∈ (deleteCategory db C).2.products ↔
      p ∈ db.products ∧
      ¬ (p.categoryId = C ∨ IsDescendantOf db.categories C p.categoryId)) := by
  have hmem : ∀ x : Oid,
      (x ∈ C :: getAllDescendantIds db.categories db.categories.length C) ↔
      (x = C ∨ IsDescendantOf db.categories C x) := by
    intro x
    simp [List.mem_cons, mem_getAllDescendantIds_iff]
  constructor
  · intro c
    simp only [deleteCategory, hfind]
    simp [List.mem_filter, hmem]
    intro _ _
    exact not_congr (mem_getAllDescendantIds_iff db.categories C c.id)
  · intro p
    simp only [deleteCategory, hfind]
    simp [List.mem_filter, hmem]
    intro _ _
    exact not_congr (mem_getAllDescendantIds_iff db.categories C p.categoryId)

/-- C7 witness: deleting root 1 of the chain 1 ← 2 ← 3 with sibling root 4
and products in categories 2 and 4. -/
theorem deleteCategory_exact_witness :
    (∀ c : Category, c ∈ (deleteCategory dbCategoryTree 1).2.categories ↔
      c ∈ dbCategoryTree.categories ∧
      ¬ (c.id = 1 ∨ IsDescendantOf dbCategoryTree.categories 1 c.id)) ∧
    (∀ p : Product, p ∈ (deleteCategory dbCategoryTree 1).2.products ↔
      p ∈ dbCategoryTree.products ∧
      ¬ (p.categoryId = 1 ∨
         IsDescendantOf dbCategoryTree.categories 1 p.categoryId)) :=
  deleteCategory_exact dbCategoryTree 1
    { id := 1, name := "A", parentId := none, image := "" } (by decide)

/-- C1 (evaluation at the failing input): a cart listing the same product
on two lines of 3 units each passes validation against the same stock value
5 twice, so the order is created and the stock is decremented to −1 — the
order placement drives the stock negative, against the `min: 0` constraint
of `ProductSchema` and the specification's invariant. -/
theorem createOrder_duplicate_line_drives_stock_negative :
    (createOrder dbOneProduct 7 [ReqItem.mk 1 3, ReqItem.mk 1 3] none
      100).1.isOk = true ∧
    ((createOrder dbOneProduct 7 [ReqItem.mk 1 3, ReqItem.mk 1 3] none
      100).2.products.map (fun p => p.stock)) = [-1] := by
  have h5 : ¬ ((5 : ℚ) < 3) := by norm_num
  constructor
  · simp [createOrder, validateItems, findProduct, dbOneProduct, h5,
      Except.isOk, Except.toBool]
  · simp [createOrder, validateItems, findProduct, dbOneProduct, h5,
      decrementStock, updateById]
    norm_num

set_option maxRecDepth 1000000 in
/-- C5 counterexample: for the bot token `t` and a payload whose declared
hash is the digest prescribed by the claim's wording — the secret computed
as HMAC-SHA256 *keyed by the bot token* over the message `"WebAppData"` —
the claim-side algorithm authenticates but `validateTelegramData` does not:
the code derives the secret with the roles swapped (key `"WebAppData"`,
message the token). -/
theorem validateTelegramData_secret_direction_counterexample :
    validateTelegramData c5InitData c5Token = false ∧
    claimValidateTelegram c5InitData c5Token = true := by
  constructor
  · decide
  · decide

/-- C5 (amended): `validateTelegramData` authenticates exactly when the
payload declares a non-empty `hash` equal to the lowercase hex HMAC-SHA256
of the newline-joined, lexicographically sorted non-hash `key=value`
strings, keyed by the secret HMAC-SHA256(key `"WebAppData"`, message the
bot token); it fails on a missing hash. -/
theorem validateTelegramData_characterization (initData botToken : List Nat) :
    validateTelegramData initData botToken = true ↔
      ∃ h, telegramDeclaredHash initData = some h ∧ h ≠ [] ∧
        hexBytes (hmacSha256 (hmacSha256 (strBytes "WebAppData") botToken)
          (telegramDataCheckString initData)) = h := by
  unfold validateTelegramData telegramDeclaredHash telegramDataCheckString
  cases hfind : (parseParams initData).find? (fun kv => kv.1 = hashKey) with
  | none => simp [hfind]
  | some kv =>
    by_cases hempty : kv.2 = []
    · simp [hfind, hempty]
    · simp [hfind, hempty]

end PlanetSupercell
